import Mathlib

/-!
Verification development for the ANSTO `mecat` metadata-registration module
(`mecat/register.py`).  We give a shallow embedding of the module's pure core:

* the `Datafile` metadata accumulator (`Datafile.__setitem__` etc.),
* the beamline configuration table `_config`,
* `_acceptFile`, `_isDatasetMetadata`, `_getDatasetName`,
* phase I of `_parse_metaman` (the MetaMan block parser),
* phase II of `_parse_metaman` (grouping datafiles into datasets),
* the sample-sheet parsing loop of `_parse_metaman`.

Python strings are modelled as Lean `String`s (lists of characters); each
Python string primitive used by the source (`split`, `rsplit`-free here,
`replace`, `rstrip`, slicing, `os.path.basename`) is modelled explicitly
below with Python semantics.  Exceptions (`KeyError`, `IndexError`,
`ValueError` from tuple unpacking) are modelled by `Option`: `none` means the
operation raises and the surrounding request aborts.
-/

namespace Mecat

/-! ## Python string primitives -/

/-- Python `s.split(sep, 1)` helper: find the first occurrence of `sep`
(non-empty in all our uses) and return the parts before and after it;
`none` when `sep` does not occur. -/
def splitFirstChars (sep : List Char) : List Char → Option (List Char × List Char)
  | [] => if sep = [] then some ([], []) else none
  | c :: rest =>
    if sep.isPrefixOf (c :: rest) then
      some ([], (c :: rest).drop sep.length)
    else
      match splitFirstChars sep rest with
      | none => none
      | some (p, q) => some (c :: p, q)

/-- Python `s.split(sep, 1)`: a one-element list when `sep` does not occur,
otherwise the part before and the part after the first occurrence. -/
def pySplitFirst (s sep : String) : List String :=
  match splitFirstChars sep.data s.data with
  | none => [s]
  | some (p, q) => [⟨p⟩, ⟨q⟩]

/-- Python `s.split(sep)` on character lists: split at every non-overlapping
occurrence of `sep`, leftmost first.  `[]` splits to `[[]]` (Python:
`''.split(sep) == ['']`).  The structurally decreasing `fuel` argument only
serves termination: every recursive call consumes at least one character, so
any `fuel > length` yields the Python result. -/
def splitAllCharsF (sep : List Char) : Nat → List Char → List (List Char)
  | 0, l => [l]
  | _ + 1, [] => [[]]
  | fuel + 1, c :: rest =>
    if sep ≠ [] ∧ sep.isPrefixOf (c :: rest) = true then
      [] :: splitAllCharsF sep fuel ((c :: rest).drop sep.length)
    else
      match splitAllCharsF sep fuel rest with
      | [] => [[c]]
      | t :: ts => (c :: t) :: ts

/-- Python `s.split(sep)` (unbounded) for a non-empty separator. -/
def pySplitAll (s sep : String) : List String :=
  (splitAllCharsF sep.data (s.data.length + 1) s.data).map (fun l => ⟨l⟩)

/-- Python `s.replace(sep, '')` on character lists: remove every
non-overlapping occurrence of `sep`, leftmost first.  `fuel` as in
`splitAllCharsF`. -/
def removeAllCharsF (sep : List Char) : Nat → List Char → List Char
  | 0, l => l
  | _ + 1, [] => []
  | fuel + 1, c :: rest =>
    if sep ≠ [] ∧ sep.isPrefixOf (c :: rest) = true then
      removeAllCharsF sep fuel ((c :: rest).drop sep.length)
    else
      c :: removeAllCharsF sep fuel rest

/-- Python `s.replace(sep, '')`. -/
def pyRemoveAll (s sep : String) : String :=
  ⟨removeAllCharsF sep.data (s.data.length + 1) s.data⟩

/-- Python `line.rstrip('\n')`: remove all trailing newline characters. -/
def pyRstripNl (s : String) : String :=
  ⟨(s.data.reverse.dropWhile (fun c => c == '\n')).reverse⟩

/-- Python `s.startswith(p)`. -/
def pyStartsWith (s p : String) : Bool :=
  p.data.isPrefixOf s.data

/-- Python `s.lower()` (ASCII case folding suffices for the file patterns). -/
def pyLower (s : String) : String :=
  ⟨s.data.map Char.toLower⟩

/-- `os.path.basename` for '/'-separated names: the part after the last '/'
(the whole string when there is no '/'). -/
def pyBasename (s : String) : String :=
  ⟨(s.data.reverse.takeWhile (fun c => c ≠ '/')).reverse⟩

/-- Python slice `line[0:3]`. -/
def pyTake3 (s : String) : String := ⟨s.data.take 3⟩

/-- Python slice `line[-5:]` (the whole string when shorter than 5). -/
def pyLast5 (s : String) : String := ⟨s.data.drop (s.data.length - 5)⟩

/-- Python slice `line[4:-5]` (empty when the bounds cross). -/
def pySlice4m5 (s : String) : String :=
  ⟨(s.data.drop 4).take (s.data.length - 9)⟩

/-- Python slice `p[1:]`. -/
def pyDrop1 (s : String) : String := ⟨s.data.drop 1⟩

/-- `p.split('/')[0]`: the first path segment (always defined, since a
Python split is never empty). -/
def firstSegment (p : String) : String :=
  (pySplitAll p "/").headD ""

/-- Python `s.rsplit(sep, 1)[0]`: the part before the last occurrence of
`sep`, or the whole string when `sep` does not occur. -/
def pyRsplitHead (s sep : String) : String :=
  match splitFirstChars sep.data.reverse s.data.reverse with
  | none => s
  | some (_, q) => ⟨q.reverse⟩

/-! ## Association lists with Python `dict` semantics

The source targets Python 2 (`self.data = {}` with a TODO to move to ordered
dictionaries); none of the claims depend on dictionary *key* order, so an
insertion-ordered association list is a sound model of every operation the
source performs: membership test, item get, item set, and in-place mutation
of a stored list. -/

/-- `m[k]` lookup; `none` models `KeyError`. -/
def alistLookup {α : Type} : List (String × α) → String → Option α
  | [], _ => none
  | (k', v) :: rest, k => if k' = k then some v else alistLookup rest k

/-- `m[k] = v`: overwrite in place, or append when the key is new. -/
def alistSet {α : Type} : List (String × α) → String → α → List (String × α)
  | [], k, v => [(k, v)]
  | (k', v') :: rest, k, v =>
    if k' = k then (k', v) :: rest else (k', v') :: alistSet rest k v

/-- In-place mutation `f` of the value stored at an existing key. -/
def alistModify {α : Type} : List (String × α) → String → (α → α) → List (String × α)
  | [], _, _ => []
  | (k', v') :: rest, k, f =>
    if k' = k then (k', f v') :: rest else (k', v') :: alistModify rest k f

/-! ## The data model: `Datafile`, `DatasetMetadata`, beamline configuration -/

/-- The `size` attribute of a `Datafile`: initialised to the integer `0` in
`__init__`, and replaced by a string when a `File Size` line is parsed. -/
inductive SizeField where
  | intZero : SizeField
  | str (s : String) : SizeField
deriving DecidableEq, Repr

/-- `class Datafile`: holds the parsed metadata about a datafile. -/
structure Datafile where
  /-- the name (path) of the datafile -/
  name : String
  /-- holds the metadata as ParameterName-Value(s) (`self.data`) -/
  data : List (String × List String) := []
  /-- the file size (`self.size`), initially `0` -/
  size : SizeField := .intZero
deriving DecidableEq, Repr

/-- `Datafile.__init__(name)`. -/
def Datafile.init (name : String) : Datafile := ⟨name, [], .intZero⟩

/-- Key normalisation performed by `Datafile.__setitem__`:
`key.replace(' ', '').replace('/', '')`. -/
def normalizeKey (key : String) : String :=
  pyRemoveAll (pyRemoveAll key " ") "/"

/-- `Datafile.__setitem__(key, value)`: `File Size` values are diverted into
the size field (with every occurrence of `' bytes'` removed); every other key
is normalised and the value appended to that key's value list. -/
def Datafile.setItem (df : Datafile) (key value : String) : Datafile :=
  if key = "File Size" then
    { df with size := .str (pyRemoveAll value " bytes") }
  else
    let k := normalizeKey key
    if (alistLookup df.data k).isSome then
      { df with data := alistModify df.data k (fun vs => vs ++ [value]) }
    else
      { df with data := df.data ++ [(k, [value])] }

/-- `Datafile.hasMetadata`: `len(self.data) > 0`. -/
def Datafile.hasMetadata (df : Datafile) : Bool :=
  df.data.length > 0

/-- `Datafile.getBeamline`: `self.name.split('/')[0]`. -/
def Datafile.getBeamline (df : Datafile) : String :=
  firstSegment df.name

/-- The dataset-grouping rule stored in `_config[beamline]['groupDSRules']`
(a Python list whose head is the rule tag; `other` stands for any tag handled
by the final `else` branch of `_getDatasetName`). -/
inductive GroupDSRule where
  | file (sep : String) : GroupDSRule
  | directory (item : Nat) : GroupDSRule
  | sample : GroupDSRule
  | other : GroupDSRule

/-- One entry of the `_config` table.  Regular-expression matchers are
modelled as boolean predicates on the matched string. -/
structure BeamlineConfig where
  dfSchema : String
  /-- `filetypes` pattern, matched against the basename by `_acceptFile` -/
  filetypes : String → Bool
  groupDSRules : GroupDSRule
  /-- `metadata` pattern (`None` for every shipped beamline) -/
  metadata : Option (String → Bool)
  beamline_group : String

/-- The shipped `filetypes` regex `.*\.(pdf)$|.*\.(hdf)$` with `re.IGNORECASE`
under `re.match`: the basename matches iff it ends in `.pdf` or `.hdf`,
case-insensitively. -/
def anstoFiletypes (basename : String) : Bool :=
  ".pdf".data.isSuffixOf (pyLower basename).data
    || ".hdf".data.isSuffixOf (pyLower basename).data

/-- The `_config` table of the source: five beamlines, all accepting
pdf/hdf files, all grouping by `['sample']`, none with a dataset-metadata
pattern. -/
def config : String → Option BeamlineConfig
  | "Echidna" => some ⟨"http://www.tardis.edu.au/schemas/ansto/ech/2011/06/21",
      anstoFiletypes, .sample, none, "BEAMLINE_ECH"⟩
  | "Kowari" => some ⟨"http://www.tardis.edu.au/schemas/ansto/kwr/2011/06/21",
      anstoFiletypes, .sample, none, "BEAMLINE_KWR"⟩
  | "Platypus" => some ⟨"http://www.tardis.edu.au/schemas/ansto/plp/2011/06/21",
      anstoFiletypes, .sample, none, "BEAMLINE_PLP"⟩
  | "Quokka" => some ⟨"http://www.tardis.edu.au/schemas/ansto/qkk/2011/06/21",
      anstoFiletypes, .sample, none, "BEAMLINE_QKK"⟩
  | "Wombat" => some ⟨"http://www.tardis.edu.au/schemas/ansto/wbt/2011/06/21",
      anstoFiletypes, .sample, none, "BEAMLINE_WBT"⟩
  | _ => none

/-! ## `_acceptFile`, `_isDatasetMetadata`, `_getDatasetName`

Each takes the configuration table explicitly (the source reads the global
`_config`); a `none` result models the `KeyError`/`IndexError` the source
would raise there, which aborts the whole ingestion. -/

/-- `_acceptFile(name, beamline)`: match the beamline's `filetypes` pattern
against the basename. -/
def acceptFile (cfgOf : String → Option BeamlineConfig)
    (name beamline : String) : Option Bool :=
  (cfgOf beamline).map (fun cfg => cfg.filetypes (pyBasename name))

/-- `_isDatasetMetadata(df, beamline)`: `False` when the beamline has no
`metadata` pattern, else match it against the basename. -/
def isDatasetMetadata (cfgOf : String → Option BeamlineConfig)
    (df : Datafile) (beamline : String) : Option Bool :=
  (cfgOf beamline).map (fun cfg =>
    match cfg.metadata with
    | none => false
    | some pat => pat (pyBasename df.name))

/-- `_getDatasetName(df, beamline)`: resolve the dataset name from the
beamline's grouping rule.  In the `sample` branch, `df['sample_name'][0]` is
used when the key is present (`[0]` raising `IndexError` on an empty value
list is *not* caught: only `KeyError` is); on `KeyError` the name falls back
to `df.name.split('/')[1]` (raising `IndexError` when there is no second
segment), coerced to `"Log Books"` when it starts with `LogBook`. -/
def getDatasetName (cfgOf : String → Option BeamlineConfig)
    (df : Datafile) (beamline : String) : Option String :=
  match cfgOf beamline with
  | none => none
  | some cfg =>
    match cfg.groupDSRules with
    | .file sep =>
      -- `df.name.rsplit(sep, 1)[0]`
      some (pyRsplitHead df.name sep)
    | .directory item => (pySplitAll df.name "/").get? item
    | .sample =>
      match alistLookup df.data "sample_name" with
      | some vs => vs.head?
      | none =>
        match (pySplitAll df.name "/").get? 1 with
        | none => none
        | some name =>
          some (if pyStartsWith name "LogBook" then "Log Books" else name)
    | .other => some df.name

/-! ## Phase I of `_parse_metaman`: the MetaMan block parser

The loop `for line in metaman` with mutable state `df` (the currently open
`Datafile`, or `None`) and `files` (the accumulated list).  The source
appends a freshly created `Datafile` to `files` immediately and then mutates
it in place; we model the same observable behaviour by keeping the open
record in `cur` and flushing it into `files` when it is closed (by a blank
line, by the next accepted marker, or by the end of the stream).  The final
`files` list is identical: same order, same final contents. -/

/-- Mutable state of the block-parsing loop. -/
structure ParseState where
  files : List Datafile
  cur : Option Datafile
deriving DecidableEq, Repr

/-- The `files` list the loop has produced so far, including the still-open
record (which the source has already appended and keeps mutating). -/
def ParseState.allFiles (st : ParseState) : List Datafile :=
  st.files ++ st.cur.toList

/-- Marker-line test of the source:
`line[0:3] == '<b>' and line[-5:] == '</b>:'`. -/
def isMarkerLine (line : String) : Bool :=
  pyTake3 line = "<b>" && pyLast5 line = "</b>:"

/-- One iteration of the parsing loop on one raw input line.  `none` models
the `KeyError` that `_acceptFile` would raise for a beamline missing from
the configuration table (unreachable when the beamline list has been
filtered against the table, as the source does). -/
def stepLine (beamlines : List String) (cfgOf : String → Option BeamlineConfig)
    (st : ParseState) (line : String) : Option ParseState :=
  -- remove newline
  let line := pyRstripNl line
  if isMarkerLine line then
    -- found a new metadata block
    let path := pySlice4m5 line
    let beamline := firstSegment path
    if beamline ∉ beamlines then
      -- unknown beamline: `continue` (note: `df` is *not* reset)
      some st
    else
      match acceptFile cfgOf path beamline with
      | none => none
      | some true =>
        -- create new Datafile object and add it to the list
        some ⟨st.allFiles, some (Datafile.init path)⟩
      | some false =>
        -- unsupported file type: no record created, `df` *not* reset
        some st
  else if line = "" then
    -- empty line indicates the end of the current file metadata block
    some ⟨st.allFiles, none⟩
  else
    match st.cur with
    | none => some st
    | some df =>
      -- anything else is metadata
      match pySplitFirst line " : " with
      | [k, v] => some ⟨st.files, some (df.setItem k v)⟩
      | _ =>
        -- `len(token) == 1`: malformed line, logged and skipped
        some st

/-- The parsing loop over a list of raw input lines. -/
def parseLines (beamlines : List String) (cfgOf : String → Option BeamlineConfig) :
    ParseState → List String → Option ParseState
  | st, [] => some st
  | st, line :: rest =>
    match stepLine beamlines cfgOf st line with
    | none => none
    | some st' => parseLines beamlines cfgOf st' rest

/-- Phase I of `_parse_metaman`: parse the MetaMan stream (given as its list
of lines) into the list of `Datafile` records, in marker order. -/
def parseMetaman (beamlines : List String) (cfgOf : String → Option BeamlineConfig)
    (lines : List String) : Option (List Datafile) :=
  (parseLines beamlines cfgOf ⟨[], none⟩ lines).map ParseState.allFiles

/-! ## Phase II of `_parse_metaman`: grouping files into datasets -/

/-- A value of the `metadata` mapping in phase II: either a freshly created
`DatasetMetadata` object (whose `data` dict the source immediately sets),
or the `Datafile` that was recognised as the dataset-metadata carrier. -/
inductive DatasetMetaEntry where
  | dsMeta (data : List (String × List String)) : DatasetMetaEntry
  | fileMeta (df : Datafile) : DatasetMetaEntry
deriving DecidableEq, Repr

/-- Mutable state of the grouping loop: the `datasets` and `metadata`
mappings. -/
structure GroupState where
  datasets : List (String × List Datafile)
  metadata : List (String × DatasetMetaEntry)
deriving DecidableEq, Repr

/-- One iteration of the grouping loop over one `Datafile`.  `none` models
an uncaught exception (unknown beamline, or `IndexError` inside
`_getDatasetName`). -/
def groupStep (cfgOf : String → Option BeamlineConfig)
    (st : GroupState) (df : Datafile) : Option GroupState :=
  if !df.hasMetadata then
    some st
  else
    let beamline := df.getBeamline
    -- work out the dataset name
    match getDatasetName cfgOf df beamline with
    | none => none
    | some dsName =>
      -- `metadata[dsName] = DatasetMetadata()`;
      -- `metadata[dsName].data = {'sample_name': [dsName]}`
      let md := alistSet st.metadata dsName (.dsMeta [("sample_name", [dsName])])
      match isDatasetMetadata cfgOf df beamline with
      | none => none
      | some false =>
        -- usual datafile metadata: append to the dataset's file list
        if (alistLookup st.datasets dsName).isSome then
          some ⟨alistModify st.datasets dsName (fun dfs => dfs ++ [df]), md⟩
        else
          some ⟨st.datasets ++ [(dsName, [df])], md⟩
      | some true =>
        -- this file holds metadata about the dataset
        some ⟨st.datasets, alistSet md dsName (.fileMeta df)⟩

/-- Phase II of `_parse_metaman`: the loop over all parsed datafiles. -/
def groupFiles (cfgOf : String → Option BeamlineConfig)
    (files : List Datafile) : Option GroupState :=
  files.foldl (fun ost df => ost.bind (fun st => groupStep cfgOf st df))
    (some ⟨[], []⟩)

/-! ## The sample-sheet parsing loop of `_parse_metaman`

The loop over the optional `sample` stream.  The database objects
(`ExperimentParameterSet`s for the sample and chemical schemas, and the
`ExperimentParameter` rows attached to them) are modelled as an ordered list
of groupings, each tagged sample- or chemical-kind and holding its key/value
entries in line order.  The `sample_ps is None` state is the `started`
flag: it is false only before the first grouping is created. -/

/-- The kind of a sample-sheet grouping. -/
inductive GroupingKind where
  | sample : GroupingKind
  | chemical : GroupingKind
deriving DecidableEq, Repr

/-- One sample-sheet grouping: an `ExperimentParameterSet` of the sample or
chemical schema together with the parameters stored into it, in order. -/
structure Grouping where
  kind : GroupingKind
  entries : List (String × String)
deriving DecidableEq, Repr

/-- State of the sample-sheet loop: groupings created so far, and whether a
sample parameter set exists yet (`sample_ps is not None`). -/
structure SampleState where
  groups : List Grouping
  started : Bool
deriving DecidableEq, Repr

/-- Append an entry to the most recently created grouping (the active
parameter set `chemical_ps or sample_ps` is always the last one created). -/
def appendToLast (groups : List Grouping) (key value : String) : List Grouping :=
  match groups.getLast? with
  | none => groups
  | some g => groups.dropLast ++ [⟨g.kind, g.entries ++ [(key, value)]⟩]

/-- One iteration of the sample-sheet loop.  The two-way unpack
`key, value = line.split(' : ')` raises `ValueError` (modelled by `none`,
aborting the whole ingestion) whenever the unbounded split does not yield
exactly two parts. -/
def stepSample (st : SampleState) (line : String) : Option SampleState :=
  let line := pyRstripNl line
  if line = "" then
    some st
  else
    match pySplitAll line " : " with
    | [key, value] =>
      let st' :=
        if key = "SampleDescription" || !st.started then
          { groups := st.groups ++ [⟨.sample, []⟩], started := true }
        else if key = "ChemicalName" then
          { st with groups := st.groups ++ [⟨.chemical, []⟩] }
        else
          st
      if value = "" then
        some st'
      else
        some { st' with groups := appendToLast st'.groups key value }
    | _ => none

/-- The sample-sheet loop over a list of raw lines. -/
def parseSampleLines : SampleState → List String → Option SampleState
  | st, [] => some st
  | st, line :: rest =>
    match stepSample st line with
    | none => none
    | some st' => parseSampleLines st' rest

/-- Parse a whole sample-sheet stream (file iteration yields the text split
at newlines; each line is `rstrip('\n')`-ed by `stepSample`, and the empty
artefact after a trailing newline is skipped as a blank line). -/
def parseSampleSheet (s : String) : Option (List Grouping) :=
  (parseSampleLines ⟨[], false⟩ (pySplitAll s "\n")).map SampleState.groups

/-! ## Specification-side descriptions used to state the claims -/

/-- A well-formed MetaMan block as the spec describes it: a path and its
`key : value` metadata lines. -/
structure Block where
  path : String
  meta : List (String × String)

/-- The marker line announcing a file block: `'<b>' + p + '</b>:'`. -/
def mkMarker (p : String) : String := "<b>" ++ p ++ "</b>:"

/-- A `key : value` metadata line. -/
def mkKV (k v : String) : String := k ++ " : " ++ v

/-- Render one block: marker (the path written absolute, with a leading
`/`), metadata lines, blank terminator. -/
def renderBlock (b : Block) : List String :=
  mkMarker ("/" ++ b.path) :: (b.meta.map (fun kv => mkKV kv.1 kv.2) ++ [""])

/-- Render a whole stream of blocks. -/
def renderBlocks (bs : List Block) : List String :=
  (bs.map renderBlock).flatten

/-- A `key : value` pair makes a well-formed metadata line: the rendered
line carries no trailing newline, is not marker-shaped, is not blank, and
splits back into exactly this key and value at the first `' : '`. -/
def WellFormedKV (k v : String) : Prop :=
  pyRstripNl (mkKV k v) = mkKV k v ∧
  isMarkerLine (mkKV k v) = false ∧
  mkKV k v ≠ "" ∧
  pySplitFirst (mkKV k v) " : " = [k, v]

instance (k v : String) : Decidable (WellFormedKV k v) := by
  unfold WellFormedKV
  infer_instance

/-- The record the parser builds for one block: `Datafile(path)` followed by
`df[key] = value` for each metadata line in order. -/
def recordOfBlock (b : Block) : Datafile :=
  b.meta.foldl (fun d kv => d.setItem kv.1 kv.2) (Datafile.init b.path)

/-- Values a block's metadata lines contribute to a given normalized key:
the values of its non-`File Size` lines whose normalized key is `k`, in
line order. -/
def specVals (meta : List (String × String)) (k : String) : List String :=
  (meta.filter (fun kv => !(kv.1 == "File Size") && (normalizeKey kv.1 == k))).map Prod.snd

/-- The expected content of a record's metadata map at key `k`: absent when
no line contributes, otherwise the ordered value sequence. -/
def specLookup (meta : List (String × String)) (k : String) : Option (List String) :=
  match specVals meta k with
  | [] => none
  | v :: vs => some (v :: vs)

/-- How an `Option`al stored value list combines with further appended
values. -/
def combineVals (o : Option (List String)) (tail : List String) : Option (List String) :=
  match o with
  | some vs => some (vs ++ tail)
  | none =>
    match tail with
    | [] => none
    | v :: vs => some (v :: vs)

/-- Modelled from the spec's words only (for contrast with the code): `File
Size` values "populate the size field exactly, with the literal suffix
`' bytes'` stripped" — i.e. remove one trailing `" bytes"` if present. -/
def specStripSuffix (v : String) : String :=
  if " bytes".data.isSuffixOf v.data then ⟨v.data.take (v.data.length - 6)⟩ else v

/-! ## Concrete fixtures used by witnesses and counterexamples

The shipped configuration table has `metadata = None` for every beamline, so
the dataset-metadata branch of the grouping loop is exercised with a
hypothetical configuration that supplies a marker pattern (the code path of
`_isDatasetMetadata` with a non-`None` pattern). -/

/-- A test configuration: beamline `B` accepts every file type, groups by
sample, and marks basenames starting with `meta` as dataset metadata;
beamline `A` accepts every file type with no metadata pattern. -/
def testConfig : String → Option BeamlineConfig
  | "B" => some ⟨"urn:test-b", fun _ => true, .sample,
      some (fun basename => pyStartsWith basename "meta"), "GROUP_B"⟩
  | "A" => some ⟨"urn:test-a", fun _ => true, .sample, none, "GROUP_A"⟩
  | _ => none

/-- A datafile whose basename matches `testConfig`'s metadata marker. -/
def dfCarrier : Datafile := ⟨"B/S1/meta.txt", [("sample_name", ["S1"])], .intZero⟩

/-- An ordinary datafile grouped under the same dataset name `S1`. -/
def dfPlain : Datafile := ⟨"B/S1/run1.dat", [("sample_name", ["S1"])], .intZero⟩

/-! ## Association-list lemmas -/

theorem alistLookup_set {α : Type} (m : List (String × α)) (k k' : String) (v : α) :
    alistLookup (alistSet m k v) k' = if k = k' then some v else alistLookup m k' := by
  induction m with
  | nil =>
    simp only [alistSet, alistLookup]
  | cons hd tl ih =>
    obtain ⟨k₀, v₀⟩ := hd
    by_cases h0 : k₀ = k
    · subst h0
      by_cases h1 : k₀ = k'
      · subst h1
        simp [alistSet, alistLookup]
      · simp [alistSet, alistLookup, h1]
    · by_cases h1 : k₀ = k'
      · subst h1
        have h2 : ¬ k = k₀ := fun h => h0 h.symm
        simp [alistSet, alistLookup, h0, h2]
      · simp [alistSet, alistLookup, h0, h1, ih]

theorem alistLookup_modify {α : Type} (m : List (String × α)) (k k' : String) (f : α → α) :
    alistLookup (alistModify m k f) k' =
      if k = k' then (alistLookup m k').map f else alistLookup m k' := by
  induction m with
  | nil =>
    simp [alistModify, alistLookup]
  | cons hd tl ih =>
    obtain ⟨k₀, v₀⟩ := hd
    by_cases h0 : k₀ = k
    · subst h0
      by_cases h1 : k₀ = k'
      · subst h1
        simp [alistModify, alistLookup]
      · simp [alistModify, alistLookup, h1]
    · by_cases h1 : k₀ = k'
      · subst h1
        have h2 : ¬ k = k₀ := fun h => h0 h.symm
        simp [alistModify, alistLookup, h0, h2]
      · simp [alistModify, alistLookup, h0, h1, ih]

theorem alistLookup_append_new {α : Type} (m : List (String × α)) (k k' : String) (v : α) :
    alistLookup (m ++ [(k, v)]) k' =
      match alistLookup m k' with
      | some w => some w
      | none => if k = k' then some v else none := by
  induction m with
  | nil =>
    simp only [List.nil_append, alistLookup]
  | cons hd tl ih =>
    obtain ⟨k₀, v₀⟩ := hd
    by_cases h1 : k₀ = k'
    · subst h1
      simp [alistLookup]
    · simp [alistLookup, h1, ih]

/-! ## `Datafile.setItem` characterisation -/

theorem setItem_name (df : Datafile) (key value : String) :
    (df.setItem key value).name = df.name := by
  unfold Datafile.setItem
  split
  · rfl
  · dsimp only
    split <;> rfl

theorem setItem_size (df : Datafile) (key value : String) (h : key ≠ "File Size") :
    (df.setItem key value).size = df.size := by
  unfold Datafile.setItem
  rw [if_neg h]
  dsimp only
  split <;> rfl

theorem setItem_fileSize_data (df : Datafile) (value : String) :
    (df.setItem "File Size" value).data = df.data := by
  unfold Datafile.setItem
  rw [if_pos rfl]

theorem setItem_lookup (df : Datafile) (key value k : String) :
    alistLookup (df.setItem key value).data k =
      if key = "File Size" then alistLookup df.data k
      else if normalizeKey key = k then
        some ((alistLookup df.data (normalizeKey key)).getD [] ++ [value])
      else alistLookup df.data k := by
  unfold Datafile.setItem
  by_cases hfs : key = "File Size"
  · rw [if_pos hfs, if_pos hfs]
  · rw [if_neg hfs, if_neg hfs]
    dsimp only
    by_cases hhit : (alistLookup df.data (normalizeKey key)).isSome
    · rw [if_pos hhit]
      dsimp only
      rw [alistLookup_modify]
      obtain ⟨vs, hvs⟩ := Option.isSome_iff_exists.mp hhit
      by_cases hk : normalizeKey key = k
      · subst hk
        rw [if_pos rfl, if_pos rfl, hvs]
        rfl
      · rw [if_neg hk, if_neg hk]
    · rw [if_neg hhit]
      dsimp only
      rw [alistLookup_append_new]
      have hnone : alistLookup df.data (normalizeKey key) = none :=
        Option.not_isSome_iff_eq_none.mp hhit
      by_cases hk : normalizeKey key = k
      · subst hk
        rw [hnone]
        simp
      · rw [if_neg hk]
        cases h : alistLookup df.data k <;> simp [h, hk]

theorem combineVals_nil (o : Option (List String)) : combineVals o [] = o := by
  cases o <;> simp [combineVals]

theorem combineVals_snoc (o : Option (List String)) (v : String) (tail : List String) :
    combineVals (some ((o.getD []) ++ [v])) tail = combineVals o (v :: tail) := by
  cases o <;> simp [combineVals]

theorem specVals_cons_fs (k₀ v₀ k : String) (tl : List (String × String))
    (hfs : k₀ = "File Size") :
    specVals ((k₀, v₀) :: tl) k = specVals tl k := by
  simp [specVals, List.filter_cons, hfs]

theorem specVals_cons_hit (k₀ v₀ k : String) (tl : List (String × String))
    (hfs : ¬k₀ = "File Size") (hk : normalizeKey k₀ = k) :
    specVals ((k₀, v₀) :: tl) k = v₀ :: specVals tl k := by
  simp [specVals, List.filter_cons, hfs, hk]

theorem specVals_cons_miss (k₀ v₀ k : String) (tl : List (String × String))
    (hk : ¬normalizeKey k₀ = k) :
    specVals ((k₀, v₀) :: tl) k = specVals tl k := by
  simp [specVals, List.filter_cons, hk]

/-- The metadata map built by folding `setItem` over a block's lines, at any
key: the initial content extended by exactly the values the lines contribute
to that key. -/
theorem foldl_setItem_lookup (meta : List (String × String)) (df : Datafile) (k : String) :
    alistLookup ((meta.foldl (fun d kv => d.setItem kv.1 kv.2) df).data) k =
      combineVals (alistLookup df.data k) (specVals meta k) := by
  induction meta generalizing df with
  | nil =>
    simp [specVals, combineVals_nil]
  | cons hd tl ih =>
    obtain ⟨k₀, v₀⟩ := hd
    rw [List.foldl_cons, ih]
    by_cases hfs : k₀ = "File Size"
    · have hdata : alistLookup (df.setItem k₀ v₀).data k = alistLookup df.data k := by
        rw [setItem_lookup, if_pos hfs]
      rw [hdata, specVals_cons_fs _ _ _ _ hfs]
    · by_cases hk : normalizeKey k₀ = k
      · have hdata : alistLookup (df.setItem k₀ v₀).data k =
            some ((alistLookup df.data k).getD [] ++ [v₀]) := by
          rw [setItem_lookup, if_neg hfs, if_pos hk, hk]
        rw [hdata, specVals_cons_hit _ _ _ _ hfs hk, combineVals_snoc]
      · have hdata : alistLookup (df.setItem k₀ v₀).data k = alistLookup df.data k := by
          rw [setItem_lookup, if_neg hfs, if_neg hk]
        rw [hdata, specVals_cons_miss _ _ _ _ hk]

/-- At an initially empty record, the fold yields exactly the spec-side
lookup. -/
theorem recordOfBlock_lookup (b : Block) (k : String) :
    alistLookup (recordOfBlock b).data k = specLookup b.meta k := by
  rw [recordOfBlock, foldl_setItem_lookup]
  show combineVals none (specVals b.meta k) = specLookup b.meta k
  cases h : specVals b.meta k <;> simp [combineVals, specLookup, h]

theorem foldl_setItem_name (meta : List (String × String)) (df : Datafile) :
    (meta.foldl (fun d kv => d.setItem kv.1 kv.2) df).name = df.name := by
  induction meta generalizing df with
  | nil => rfl
  | cons hd tl ih =>
    rw [List.foldl_cons, ih, setItem_name]

theorem recordOfBlock_name (b : Block) : (recordOfBlock b).name = b.path := by
  rw [recordOfBlock, foldl_setItem_name]
  rfl

/-! ## Marker-line lemmas -/

theorem mkMarker_data (p : String) :
    (mkMarker p).data = '<' :: 'b' :: '>' :: (p.data ++ ['<', '/', 'b', '>', ':']) := by
  show (['<', 'b', '>'] ++ p.data) ++ ['<', '/', 'b', '>', ':'] = _
  simp

theorem pyRstrip_of_snoc (s : String) (l : List Char) (c : Char)
    (hdata : s.data = l ++ [c]) (hc : (c == '\n') = false) : pyRstripNl s = s := by
  unfold pyRstripNl
  rw [hdata]
  simp only [List.reverse_append, List.reverse_singleton, List.singleton_append,
    List.dropWhile_cons, hc]
  simp only [Bool.false_eq_true, if_false, List.reverse_cons, List.reverse_reverse]
  rw [← hdata]

theorem mkMarker_rstrip (p : String) : pyRstripNl (mkMarker p) = mkMarker p := by
  apply pyRstrip_of_snoc (mkMarker p) ('<' :: 'b' :: '>' :: (p.data ++ ['<', '/', 'b', '>'])) ':'
  · rw [mkMarker_data]
    simp
  · decide

theorem pyTake3_mkMarker (p : String) : pyTake3 (mkMarker p) = "<b>" := by
  unfold pyTake3
  rw [mkMarker_data]
  rfl

theorem pyLast5_mkMarker (p : String) : pyLast5 (mkMarker p) = "</b>:" := by
  unfold pyLast5
  have hsplit : (mkMarker p).data =
      ('<' :: 'b' :: '>' :: p.data) ++ ['<', '/', 'b', '>', ':'] := by
    rw [mkMarker_data]
    simp
  rw [hsplit]
  have hlen : ('<' :: 'b' :: '>' :: p.data).length =
      (('<' :: 'b' :: '>' :: p.data) ++ ['<', '/', 'b', '>', ':']).length - 5 := by
    simp
  rw [List.drop_left' hlen]

theorem isMarkerLine_mkMarker (p : String) : isMarkerLine (mkMarker p) = true := by
  simp [isMarkerLine, pyTake3_mkMarker, pyLast5_mkMarker]

theorem slice_mkMarker (p : String) : pySlice4m5 (mkMarker p) = pyDrop1 p := by
  unfold pySlice4m5 pyDrop1
  rw [mkMarker_data]
  cases hp : p.data with
  | nil => rfl
  | cons c cs =>
    show (⟨List.take (('<' :: 'b' :: '>' :: ((c :: cs) ++ ['<', '/', 'b', '>', ':'])).length - 9)
      (List.drop 4 ('<' :: 'b' :: '>' :: ((c :: cs) ++ ['<', '/', 'b', '>', ':'])))⟩ : String) =
      ⟨List.drop 1 (c :: cs)⟩
    have hlen : ('<' :: 'b' :: '>' :: ((c :: cs) ++ ['<', '/', 'b', '>', ':'])).length - 9 =
        cs.length := by
      simp
    rw [hlen]
    show (⟨List.take cs.length (cs ++ ['<', '/', 'b', '>', ':'])⟩ : String) = ⟨cs⟩
    rw [List.take_left]

/-! ## `stepLine` and `parseLines` lemmas -/

theorem stepLine_marker_accept (bl : List String) (cfgOf : String → Option BeamlineConfig)
    (st : ParseState) (p : String)
    (hin : firstSegment (pyDrop1 p) ∈ bl)
    (hacc : acceptFile cfgOf (pyDrop1 p) (firstSegment (pyDrop1 p)) = some true) :
    stepLine bl cfgOf st (mkMarker p) =
      some ⟨st.allFiles, some (Datafile.init (pyDrop1 p))⟩ := by
  unfold stepLine
  dsimp only
  rw [mkMarker_rstrip, isMarkerLine_mkMarker, if_pos rfl, slice_mkMarker]
  rw [if_neg (not_not_intro hin), hacc]

theorem stepLine_marker_reject_beamline (bl : List String)
    (cfgOf : String → Option BeamlineConfig) (st : ParseState) (p : String)
    (hnot : firstSegment (pyDrop1 p) ∉ bl) :
    stepLine bl cfgOf st (mkMarker p) = some st := by
  unfold stepLine
  dsimp only
  rw [mkMarker_rstrip, isMarkerLine_mkMarker, if_pos rfl, slice_mkMarker]
  rw [if_pos hnot]

theorem stepLine_marker_reject_filetype (bl : List String)
    (cfgOf : String → Option BeamlineConfig) (st : ParseState) (p : String)
    (hin : firstSegment (pyDrop1 p) ∈ bl)
    (hacc : acceptFile cfgOf (pyDrop1 p) (firstSegment (pyDrop1 p)) = some false) :
    stepLine bl cfgOf st (mkMarker p) = some st := by
  unfold stepLine
  dsimp only
  rw [mkMarker_rstrip, isMarkerLine_mkMarker, if_pos rfl, slice_mkMarker]
  rw [if_neg (not_not_intro hin), hacc]

theorem stepLine_blank (bl : List String) (cfgOf : String → Option BeamlineConfig)
    (st : ParseState) :
    stepLine bl cfgOf st "" = some ⟨st.allFiles, none⟩ := by
  rfl

theorem stepLine_kv (bl : List String) (cfgOf : String → Option BeamlineConfig)
    (files : List Datafile) (df : Datafile) (line k v : String)
    (h1 : pyRstripNl line = line) (h2 : isMarkerLine line = false) (h3 : line ≠ "")
    (h4 : pySplitFirst line " : " = [k, v]) :
    stepLine bl cfgOf ⟨files, some df⟩ line = some ⟨files, some (df.setItem k v)⟩ := by
  unfold stepLine
  dsimp only
  rw [h1, h2]
  simp only [Bool.false_eq_true, if_false]
  rw [if_neg h3, h4]

theorem stepLine_malformed (bl : List String) (cfgOf : String → Option BeamlineConfig)
    (files : List Datafile) (df : Datafile) (line : String)
    (h1 : pyRstripNl line = line) (h2 : isMarkerLine line = false) (h3 : line ≠ "")
    (h4 : pySplitFirst line " : " = [line]) :
    stepLine bl cfgOf ⟨files, some df⟩ line = some ⟨files, some df⟩ := by
  unfold stepLine
  dsimp only
  rw [h1, h2]
  simp only [Bool.false_eq_true, if_false]
  rw [if_neg h3, h4]

theorem stepLine_no_open (bl : List String) (cfgOf : String → Option BeamlineConfig)
    (files : List Datafile) (line : String)
    (h1 : pyRstripNl line = line) (h2 : isMarkerLine line = false) (h3 : line ≠ "") :
    stepLine bl cfgOf ⟨files, none⟩ line = some ⟨files, none⟩ := by
  unfold stepLine
  dsimp only
  rw [h1, h2]
  simp only [Bool.false_eq_true, if_false]
  rw [if_neg h3]

theorem parseLines_append (bl : List String) (cfgOf : String → Option BeamlineConfig)
    (l1 l2 : List String) (st : ParseState) :
    parseLines bl cfgOf st (l1 ++ l2) =
      (parseLines bl cfgOf st l1).bind (fun st' => parseLines bl cfgOf st' l2) := by
  induction l1 generalizing st with
  | nil => rfl
  | cons line rest ih =>
    show parseLines bl cfgOf st (line :: (rest ++ l2)) = _
    cases h : stepLine bl cfgOf st line with
    | none => simp [parseLines, h]
    | some st' => simp [parseLines, h, ih st']

/-- Consuming a run of well-formed `key : value` lines with an open record
folds `setItem` over them. -/
theorem parseLines_kv_run (bl : List String) (cfgOf : String → Option BeamlineConfig)
    (meta : List (String × String)) (files : List Datafile) (df : Datafile)
    (rest : List String) (hwf : ∀ kv ∈ meta, WellFormedKV kv.1 kv.2) :
    parseLines bl cfgOf ⟨files, some df⟩ ((meta.map (fun kv => mkKV kv.1 kv.2)) ++ rest) =
      parseLines bl cfgOf
        ⟨files, some (meta.foldl (fun d kv => d.setItem kv.1 kv.2) df)⟩ rest := by
  induction meta generalizing df with
  | nil => rfl
  | cons hd tl ih =>
    obtain ⟨k, v⟩ := hd
    obtain ⟨h1, h2, h3, h4⟩ := hwf (k, v) (by simp)
    have hstep := stepLine_kv bl cfgOf files df (mkKV k v) k v h1 h2 h3 h4
    show parseLines bl cfgOf ⟨files, some df⟩
      (mkKV k v :: (tl.map (fun kv => mkKV kv.1 kv.2) ++ rest)) = _
    simp only [parseLines, hstep]
    exact ih (df.setItem k v) (fun kv hkv => hwf kv (List.mem_cons_of_mem _ hkv))

/-- Consuming one whole accepted, well-formed block from a closed state
appends exactly its record and closes the state again. -/
theorem parseLines_block (bl : List String) (cfgOf : String → Option BeamlineConfig)
    (b : Block) (files : List Datafile) (rest : List String)
    (hin : firstSegment b.path ∈ bl)
    (hacc : acceptFile cfgOf b.path (firstSegment b.path) = some true)
    (hwf : ∀ kv ∈ b.meta, WellFormedKV kv.1 kv.2) :
    parseLines bl cfgOf ⟨files, none⟩ (renderBlock b ++ rest) =
      parseLines bl cfgOf ⟨files ++ [recordOfBlock b], none⟩ rest := by
  have hdrop : pyDrop1 ("/" ++ b.path) = b.path := rfl
  have hmk := stepLine_marker_accept bl cfgOf ⟨files, none⟩ ("/" ++ b.path)
    (by rw [hdrop]; exact hin) (by rw [hdrop]; exact hacc)
  rw [hdrop] at hmk
  simp only [ParseState.allFiles, Option.toList, List.append_nil] at hmk
  show parseLines bl cfgOf ⟨files, none⟩
    (mkMarker ("/" ++ b.path) ::
      ((b.meta.map (fun kv => mkKV kv.1 kv.2) ++ [""]) ++ rest)) = _
  simp only [parseLines, hmk]
  rw [List.append_assoc, List.singleton_append,
    parseLines_kv_run bl cfgOf b.meta files (Datafile.init b.path) ("" :: rest) hwf]
  have hblank := stepLine_blank bl cfgOf
    ⟨files, some (b.meta.foldl (fun d kv => d.setItem kv.1 kv.2) (Datafile.init b.path))⟩
  simp only [ParseState.allFiles, Option.toList] at hblank
  simp only [parseLines, hblank]
  rfl

/-- Consuming a whole stream of accepted, well-formed blocks. -/
theorem parseLines_blocks (bl : List String) (cfgOf : String → Option BeamlineConfig)
    (blocks : List Block) (acc : List Datafile)
    (hin : ∀ b ∈ blocks, firstSegment b.path ∈ bl)
    (hacc : ∀ b ∈ blocks, acceptFile cfgOf b.path (firstSegment b.path) = some true)
    (hwf : ∀ b ∈ blocks, ∀ kv ∈ b.meta, WellFormedKV kv.1 kv.2) :
    parseLines bl cfgOf ⟨acc, none⟩ (renderBlocks blocks) =
      some ⟨acc ++ blocks.map recordOfBlock, none⟩ := by
  induction blocks generalizing acc with
  | nil =>
    simp [renderBlocks, parseLines]
  | cons b tl ih =>
    have hcons : renderBlocks (b :: tl) = renderBlock b ++ renderBlocks tl := by
      simp [renderBlocks]
    rw [hcons,
      parseLines_block bl cfgOf b acc (renderBlocks tl)
        (hin b (by simp)) (hacc b (by simp)) (hwf b (by simp)),
      ih (acc ++ [recordOfBlock b])
        (fun x hx => hin x (List.mem_cons_of_mem _ hx))
        (fun x hx => hacc x (List.mem_cons_of_mem _ hx))
        (fun x hx => hwf x (List.mem_cons_of_mem _ hx))]
    simp

/-! ## Grouping-loop lemmas -/

theorem groupFold_none (cfgOf : String → Option BeamlineConfig) (l : List Datafile) :
    l.foldl (fun ost df => ost.bind (fun st => groupStep cfgOf st df)) none = none := by
  induction l with
  | nil => rfl
  | cons d tl ih => simpa using ih

/-- A carrier record (`_isDatasetMetadata` true) rewrites the metadata entry
for its dataset name to itself. -/
theorem groupStep_carrier (cfgOf : String → Option BeamlineConfig)
    (st : GroupState) (df : Datafile) (n : String)
    (hmeta : df.hasMetadata = true)
    (hname : getDatasetName cfgOf df df.getBeamline = some n)
    (hcar : isDatasetMetadata cfgOf df df.getBeamline = some true) :
    groupStep cfgOf st df = some ⟨st.datasets,
      alistSet (alistSet st.metadata n (.dsMeta [("sample_name", [n])])) n (.fileMeta df)⟩ := by
  unfold groupStep
  dsimp only
  rw [hmeta, hname, hcar]
  rw [if_neg (show ¬((!true : Bool) = true) by simp)]

/-- A step by a record that does not resolve to dataset name `n` leaves the
metadata entry for `n` unchanged. -/
theorem groupStep_metadata_other (cfgOf : String → Option BeamlineConfig)
    (st st' : GroupState) (df : Datafile) (n : String)
    (h : groupStep cfgOf st df = some st')
    (hother : df.hasMetadata = true → getDatasetName cfgOf df df.getBeamline ≠ some n) :
    alistLookup st'.metadata n = alistLookup st.metadata n := by
  unfold groupStep at h
  dsimp only at h
  by_cases hm : df.hasMetadata = true
  · rw [hm, if_neg (show ¬((!true : Bool) = true) by simp)] at h
    cases hn : getDatasetName cfgOf df df.getBeamline with
    | none =>
      rw [hn] at h
      exact absurd h (by simp)
    | some m =>
      have hmn : m ≠ n := fun hEq => (hother hm) (hEq ▸ hn)
      rw [hn] at h
      cases hd : isDatasetMetadata cfgOf df df.getBeamline with
      | none =>
        rw [hd] at h
        exact absurd h (by simp)
      | some b =>
        rw [hd] at h
        cases b with
        | false =>
          dsimp only at h
          split at h <;>
          · injection h with h'
            rw [← h']
            simp [alistLookup_set, hmn]
        | true =>
          dsimp only at h
          injection h with h'
          rw [← h']
          simp [alistLookup_set, hmn]
  · have hm' : df.hasMetadata = false := by
      cases hb : df.hasMetadata
      · rfl
      · exact absurd hb hm
    rw [hm', if_pos (show ((!false : Bool) = true) by simp)] at h
    injection h with h'
    rw [← h']

/-- Folding the grouping step over records none of which resolve to `n`
preserves the metadata entry for `n`. -/
theorem groupFold_preserve (cfgOf : String → Option BeamlineConfig)
    (post : List Datafile) (st stF : GroupState) (n : String)
    (hfold : post.foldl (fun ost df => ost.bind (fun s => groupStep cfgOf s df))
      (some st) = some stF)
    (hpost : ∀ d ∈ post, d.hasMetadata = true →
      getDatasetName cfgOf d d.getBeamline ≠ some n) :
    alistLookup stF.metadata n = alistLookup st.metadata n := by
  induction post generalizing st with
  | nil =>
    injection hfold with h
    rw [h]
  | cons d tl ih =>
    rw [List.foldl_cons] at hfold
    simp only [Option.some_bind] at hfold
    cases hstep : groupStep cfgOf st d with
    | none =>
      rw [hstep] at hfold
      rw [groupFold_none] at hfold
      exact absurd hfold (by simp)
    | some st1 =>
      rw [hstep] at hfold
      have h1 := ih st1 hfold (fun x hx => hpost x (List.mem_cons_of_mem _ hx))
      rw [h1, groupStep_metadata_other cfgOf st st1 d n hstep (hpost d (by simp))]

/-- A sample-sheet line whose unbounded split at `' : '` does not yield
exactly two parts aborts the loop. -/
theorem stepSample_abort (st : SampleState) (bad : String)
    (h1 : pyRstripNl bad = bad) (h2 : bad ≠ "")
    (h3 : (pySplitAll bad " : ").length ≠ 2) :
    stepSample st bad = none := by
  unfold stepSample
  dsimp only
  rw [h1, if_neg h2]
  cases hsp : pySplitAll bad " : " with
  | nil => rfl
  | cons a tl =>
    cases tl with
    | nil => rfl
    | cons b tl2 =>
      cases tl2 with
      | nil => exact absurd (by rw [hsp]; rfl) h3
      | cons c tl3 => rfl

/-! ## The claims -/

/-- **C5, counterexample.**  The claim says a `File Size` line sets the size
field to the value with the literal *suffix* `" bytes"` stripped.  The code
(`value.replace(' bytes', '')`) removes *every* occurrence of `' bytes'`:
on the value `"1 bytes2 bytes"` the code stores `"12"`, while stripping only
the suffix would leave `"1 bytes2"`. -/
theorem claim_C5_counterexample :
    ((Datafile.init "Echidna/S/a.pdf").setItem "File Size" "1 bytes2 bytes").size =
      .str "12" ∧
    specStripSuffix "1 bytes2 bytes" = "1 bytes2" ∧
    SizeField.str "12" ≠ SizeField.str "1 bytes2" := by
  decide

/-- **C5, amended.**  For every Datafile record and every metadata line with
key exactly `File Size`, the value is never inserted into the generic
metadata map and the record's name is unchanged; the size field is set to
the value with *every occurrence* of the substring `" bytes"` removed (which
equals suffix-stripping whenever `" bytes"` occurs only as a suffix). -/
theorem claim_C5_amended (df : Datafile) (v : String) :
    (df.setItem "File Size" v).data = df.data ∧
    (df.setItem "File Size" v).name = df.name ∧
    (df.setItem "File Size" v).size = .str (pyRemoveAll v " bytes") := by
  refine ⟨setItem_fileSize_data df v, setItem_name df "File Size" v, ?_⟩
  unfold Datafile.setItem
  rw [if_pos rfl]

/-- **C6.**  The Sample-Sheet Parser applied to
`"SampleDescription : foo\nChemicalName : bar\nMass : 5 mg\n"` yields exactly
two groupings in order: a sample-kind grouping holding
`SampleDescription=foo` (opened by the very first line), then a
chemical-kind grouping holding `ChemicalName=bar` and `Mass="5 mg"` (opened
by the `ChemicalName` line, to which the subsequent line attaches). -/
theorem claim_C6 :
    parseSampleSheet "SampleDescription : foo\nChemicalName : bar\nMass : 5 mg\n" =
      some [⟨.sample, [("SampleDescription", "foo")]⟩,
            ⟨.chemical, [("ChemicalName", "bar"), ("Mass", "5 mg")]⟩] := by
  decide

/-- **C7.**  With an open Datafile record, a metadata line that does not
contain the separator `' : '` (its maxsplit-1 split returns the whole line)
is skipped without aborting the block: the parse state is unchanged and the
rest of the block is processed from the very same state, so later
well-formed lines still land in the same record. -/
theorem claim_C7 (bl : List String) (cfgOf : String → Option BeamlineConfig)
    (files : List Datafile) (df : Datafile) (line : String) (rest : List String)
    (h1 : pyRstripNl line = line) (h2 : isMarkerLine line = false) (h3 : line ≠ "")
    (h4 : pySplitFirst line " : " = [line]) :
    parseLines bl cfgOf ⟨files, some df⟩ (line :: rest) =
      parseLines bl cfgOf ⟨files, some df⟩ rest := by
  have hstep := stepLine_malformed bl cfgOf files df line h1 h2 h3 h4
  simp [parseLines, hstep]

/-- **C7, witness.**  A malformed line inside an open block is skipped and
the following `key : value` line still reaches the same record. -/
theorem claim_C7_witness :
    pySplitFirst "malformed line" " : " = ["malformed line"] ∧
    parseLines ["Echidna"] config ⟨[], some (Datafile.init "Echidna/S/a.pdf")⟩
        ("malformed line" :: ["k : v", ""]) =
      parseLines ["Echidna"] config ⟨[], some (Datafile.init "Echidna/S/a.pdf")⟩
        ["k : v", ""] :=
  ⟨by decide,
    claim_C7 ["Echidna"] config [] (Datafile.init "Echidna/S/a.pdf") "malformed line"
      ["k : v", ""] (by decide) (by decide) (by decide) (by decide)⟩

/-- **C9.**  In the sample-sheet loop, a non-blank line containing the
separator `' : '` more than once, or not at all, makes the two-way unpack of
the unbounded split fail: the whole sample-sheet parse returns `none`
(modelling the uncaught `ValueError` that aborts the ingestion), whatever
lines surround it — unlike the main metadata parser, whose maxsplit-1 split
merely skips such a line (claim C7). -/
theorem claim_C9 (pre post : List String) (bad : String) (st : SampleState)
    (h1 : pyRstripNl bad = bad) (h2 : bad ≠ "")
    (h3 : (pySplitAll bad " : ").length ≠ 2) :
    parseSampleLines st (pre ++ bad :: post) = none := by
  induction pre generalizing st with
  | nil =>
    have habort := stepSample_abort st bad h1 h2 h3
    simp [parseSampleLines, habort]
  | cons l tl ih =>
    show parseSampleLines st (l :: (tl ++ bad :: post)) = none
    cases hstep : stepSample st l with
    | none => simp [parseSampleLines, hstep]
    | some st' => simp [parseSampleLines, hstep, ih st']

/-- **C9, witness.**  A line with two separators aborts the whole
sample-sheet parse. -/
theorem claim_C9_witness :
    ("a : b : c" : String) ≠ "" ∧ (pySplitAll "a : b : c" " : ").length ≠ 2 ∧
    parseSampleLines ⟨[], false⟩
      (["SampleDescription : foo"] ++ "a : b : c" :: ["Mass : 5 mg"]) = none :=
  ⟨by decide, by decide,
    claim_C9 ["SampleDescription : foo"] ["Mass : 5 mg"] "a : b : c" ⟨[], false⟩
      (by decide) (by decide) (by decide)⟩

/-- **C3.**  Under grouping strategy `sample`: a record with a `sample_name`
key resolves to the first value of that key, with no LogBook coercion applied
to it (the result is that value verbatim, whatever it starts with); a record
without the key resolves to the second segment of its path (when one
exists), coerced to `"Log Books"` when that segment starts with `LogBook`. -/
theorem claim_C3 (cfgOf : String → Option BeamlineConfig) (df : Datafile)
    (beamline : String) (cfg : BeamlineConfig)
    (hcfg : cfgOf beamline = some cfg) (hrule : cfg.groupDSRules = .sample) :
    (∀ v vs, alistLookup df.data "sample_name" = some (v :: vs) →
      getDatasetName cfgOf df beamline = some v) ∧
    (∀ seg, alistLookup df.data "sample_name" = none →
      (pySplitAll df.name "/").get? 1 = some seg →
      getDatasetName cfgOf df beamline =
        some (if pyStartsWith seg "LogBook" then "Log Books" else seg)) := by
  unfold getDatasetName
  rw [hcfg]
  dsimp only
  rw [hrule]
  constructor
  · intro v vs hsn
    rw [hsn]
    rfl
  · intro seg hsn hseg
    rw [hsn, hseg]

/-- **C3, witness.**  `sample_name=["Foo"]` resolves to `"Foo"`; no
`sample_name` with path `Echidna/LogBookXYZ/f1.pdf` resolves to
`"Log Books"`; `sample_name=["LogBookQ"]` resolves to `"LogBookQ"` (no
coercion on the metadata value). -/
theorem claim_C3_witness :
    getDatasetName config ⟨"Echidna/D/f1.pdf", [("sample_name", ["Foo"])], .intZero⟩
      "Echidna" = some "Foo" ∧
    getDatasetName config ⟨"Echidna/LogBookXYZ/f1.pdf", [("k", ["v"])], .intZero⟩
      "Echidna" = some "Log Books" ∧
    getDatasetName config ⟨"Echidna/D/f1.pdf", [("sample_name", ["LogBookQ"])], .intZero⟩
      "Echidna" = some "LogBookQ" := by
  refine ⟨?_, ?_, ?_⟩
  · exact (claim_C3 config _ "Echidna" _ rfl rfl).1 "Foo" [] (by decide)
  · have h := (claim_C3 config ⟨"Echidna/LogBookXYZ/f1.pdf", [("k", ["v"])], .intZero⟩
      "Echidna" _ rfl rfl).2 "LogBookXYZ" (by decide) (by decide)
    rw [h]
    decide
  · exact (claim_C3 config _ "Echidna" _ rfl rfl).1 "LogBookQ" [] (by decide)

/-- **C10.**  Under grouping strategy `sample`, dataset-name resolution is
partial: a record without a `sample_name` key whose path has no second
segment (no `'/'` in the path) fails (`tokens[1]` raises `IndexError`,
modelled `none`); it is guaranteed to succeed when the record has a
`sample_name` key with at least one value, or when a second path segment
exists while the key is absent. -/
theorem claim_C10 (cfgOf : String → Option BeamlineConfig) (df : Datafile)
    (beamline : String) (cfg : BeamlineConfig)
    (hcfg : cfgOf beamline = some cfg) (hrule : cfg.groupDSRules = .sample) :
    (alistLookup df.data "sample_name" = none →
      (pySplitAll df.name "/").get? 1 = none →
      getDatasetName cfgOf df beamline = none) ∧
    (∀ v vs, alistLookup df.data "sample_name" = some (v :: vs) →
      (getDatasetName cfgOf df beamline).isSome = true) ∧
    (∀ seg, alistLookup df.data "sample_name" = none →
      (pySplitAll df.name "/").get? 1 = some seg →
      (getDatasetName cfgOf df beamline).isSome = true) := by
  unfold getDatasetName
  rw [hcfg]
  dsimp only
  rw [hrule]
  refine ⟨?_, ?_, ?_⟩
  · intro hsn hseg
    rw [hsn, hseg]
  · intro v vs hsn
    rw [hsn]
    rfl
  · intro seg hsn hseg
    rw [hsn, hseg]
    rfl

/-- **C10, witness.**  A record with metadata but no `sample_name` and the
one-segment path `"Echidna"` fails name resolution; with a second segment or
a `sample_name` value it succeeds. -/
theorem claim_C10_witness :
    getDatasetName config ⟨"Echidna", [("k", ["v"])], .intZero⟩ "Echidna" = none ∧
    (getDatasetName config ⟨"Echidna/D/f1.pdf", [("k", ["v"])], .intZero⟩
      "Echidna").isSome = true ∧
    (getDatasetName config ⟨"Echidna", [("sample_name", ["S"])], .intZero⟩
      "Echidna").isSome = true := by
  refine ⟨?_, ?_, ?_⟩
  · exact (claim_C10 config ⟨"Echidna", [("k", ["v"])], .intZero⟩ "Echidna" _ rfl rfl).1
      (by decide) (by decide)
  · exact (claim_C10 config ⟨"Echidna/D/f1.pdf", [("k", ["v"])], .intZero⟩ "Echidna" _
      rfl rfl).2.2 "D" (by decide) (by decide)
  · exact (claim_C10 config ⟨"Echidna", [("sample_name", ["S"])], .intZero⟩ "Echidna" _
      rfl rfl).2.1 "S" [] (by decide)

/-- **C8.**  A marker line `'<b>' + p + '</b>:'` is sliced as `line[4:-5]`,
one character past the `<b>` tag: the accepted record's stored path is `p`
with its first character removed, and the beamline is resolved from that
sliced path's first segment.  For `p` starting with `'/'` the slicing
silently eats the slash (`'<b>/A/B/f</b>:'` stores `"A/B/f"`, beamline
`"A"`); for any other `p` the first character of the intended path is
silently lost. -/
theorem claim_C8 (bl : List String) (cfgOf : String → Option BeamlineConfig)
    (st : ParseState) (p : String)
    (hin : firstSegment (pyDrop1 p) ∈ bl)
    (hacc : acceptFile cfgOf (pyDrop1 p) (firstSegment (pyDrop1 p)) = some true) :
    pySlice4m5 (mkMarker p) = pyDrop1 p ∧
    stepLine bl cfgOf st (mkMarker p) =
      some ⟨st.allFiles, some (Datafile.init (pyDrop1 p))⟩ ∧
    (Datafile.init (pyDrop1 p)).getBeamline = firstSegment (pyDrop1 p) :=
  ⟨slice_mkMarker p, stepLine_marker_accept bl cfgOf st p hin hacc, rfl⟩

/-- **C8, witness.**  The marker `'<b>/A/B/f</b>:'` yields the record path
`"A/B/f"` with beamline `"A"`; for `p = "xA/B/g"` (no leading slash) the
intended path loses its first character, storing `"A/B/g"`. -/
theorem claim_C8_witness :
    mkMarker "/A/B/f" = "<b>/A/B/f</b>:" ∧
    stepLine ["A"] testConfig ⟨[], none⟩ (mkMarker "/A/B/f") =
      some ⟨[], some (Datafile.init "A/B/f")⟩ ∧
    (Datafile.init "A/B/f").getBeamline = "A" ∧
    stepLine ["A"] testConfig ⟨[], none⟩ (mkMarker "xA/B/g") =
      some ⟨[], some (Datafile.init "A/B/g")⟩ := by
  have h1 := claim_C8 ["A"] testConfig ⟨[], none⟩ "/A/B/f" (by decide) (by decide)
  have h2 := claim_C8 ["A"] testConfig ⟨[], none⟩ "xA/B/g" (by decide) (by decide)
  exact ⟨by decide, h1.2.1, by decide, h2.2.1⟩

/-- **C4, counterexample.**  The claim says the `key : value` lines after a
rejected marker contribute to no record.  But a rejected marker does not
reset the open record (`continue`, or falling through `_acceptFile`), so when
an accepted block is *not* blank-line-terminated before the rejected marker,
those lines are appended to the still-open previous record: here `k2 : v2`
follows the rejected `Unknown` marker yet lands in the record of
`Echidna/S/a.pdf`. -/
theorem claim_C4_counterexample :
    parseMetaman ["Echidna"] config
        ["<b>/Echidna/S/a.pdf</b>:", "k1 : v1", "<b>/Unknown/S/b.pdf</b>:", "k2 : v2"] =
      some [⟨"Echidna/S/a.pdf", [("k1", ["v1"]), ("k2", ["v2"])], .intZero⟩] ∧
    alistLookup
      (Datafile.data ⟨"Echidna/S/a.pdf", [("k1", ["v1"]), ("k2", ["v2"])], .intZero⟩)
      "k2" = some ["v2"] := by
  decide

/-- Metadata-shaped lines processed with no open record are all ignored. -/
theorem parseLines_ignored (bl : List String) (cfgOf : String → Option BeamlineConfig)
    (files : List Datafile) (ls rest : List String)
    (hls : ∀ l ∈ ls, pyRstripNl l = l ∧ isMarkerLine l = false ∧ l ≠ "") :
    parseLines bl cfgOf ⟨files, none⟩ (ls ++ rest) =
      parseLines bl cfgOf ⟨files, none⟩ rest := by
  induction ls with
  | nil => rfl
  | cons l tl ih =>
    obtain ⟨h1, h2, h3⟩ := hls l (by simp)
    have hstep := stepLine_no_open bl cfgOf files l h1 h2 h3
    show parseLines bl cfgOf ⟨files, none⟩ (l :: (tl ++ rest)) = _
    simp only [parseLines, hstep]
    exact ih (fun x hx => hls x (List.mem_cons_of_mem _ hx))

/-- **C4, amended.**  A rejected marker (unknown beamline or unsupported
file type) creates no record, and — *provided no record is still open when
the marker arrives* (e.g. every accepted block was terminated by its blank
line) — the `key : value` lines following it up to the next marker
contribute to no record: parsing continues exactly as if the rejected block
were absent.  When a record is still open, those lines are appended to it
(see the counterexample). -/
theorem claim_C4_amended (bl : List String) (cfgOf : String → Option BeamlineConfig)
    (files : List Datafile) (p : String) (ls rest : List String)
    (hrej : firstSegment (pyDrop1 p) ∉ bl ∨
      (firstSegment (pyDrop1 p) ∈ bl ∧
        acceptFile cfgOf (pyDrop1 p) (firstSegment (pyDrop1 p)) = some false))
    (hls : ∀ l ∈ ls, pyRstripNl l = l ∧ isMarkerLine l = false ∧ l ≠ "") :
    parseLines bl cfgOf ⟨files, none⟩ (mkMarker p :: (ls ++ rest)) =
      parseLines bl cfgOf ⟨files, none⟩ rest := by
  have hstep : stepLine bl cfgOf ⟨files, none⟩ (mkMarker p) = some ⟨files, none⟩ := by
    cases hrej with
    | inl h => exact stepLine_marker_reject_beamline bl cfgOf ⟨files, none⟩ p h
    | inr h => exact stepLine_marker_reject_filetype bl cfgOf ⟨files, none⟩ p h.1 h.2
  simp only [parseLines, hstep]
  exact parseLines_ignored bl cfgOf files ls rest hls

/-- **C4, amended, witness.**  From a closed state, a marker for the unknown
beamline `Unknown` followed by a `key : value` line is wholly skipped. -/
theorem claim_C4_amended_witness :
    firstSegment (pyDrop1 "/Unknown/S/b.pdf") ∉ ["Echidna"] ∧
    parseLines ["Echidna"] config ⟨[], none⟩
        (mkMarker "/Unknown/S/b.pdf" :: (["k2 : v2"] ++ [""])) =
      parseLines ["Echidna"] config ⟨[], none⟩ [""] :=
  ⟨by decide,
    claim_C4_amended ["Echidna"] config [] "/Unknown/S/b.pdf" ["k2 : v2"] [""]
      (Or.inl (by decide)) (by decide)⟩

/-- **C1, counterexample.**  The claim says the placeholder Dataset Metadata
Record is created only the first time a name is seen, so a metadata-carrier
record wins regardless of processing order.  In the code the placeholder is
re-created for *every* record of the name: with the carrier `dfCarrier`
processed before the ordinary `dfPlain` (both grouped under `"S1"`), the
later placeholder overwrites the carrier, and the final metadata mapping
holds the placeholder, not the carrier. -/
theorem claim_C1_counterexample :
    Datafile.hasMetadata dfCarrier = true ∧
    isDatasetMetadata testConfig dfCarrier dfCarrier.getBeamline = some true ∧
    getDatasetName testConfig dfCarrier dfCarrier.getBeamline = some "S1" ∧
    isDatasetMetadata testConfig dfPlain dfPlain.getBeamline = some false ∧
    getDatasetName testConfig dfPlain dfPlain.getBeamline = some "S1" ∧
    groupFiles testConfig [dfCarrier, dfPlain] =
      some ⟨[("S1", [dfPlain])], [("S1", .dsMeta [("sample_name", ["S1"])])]⟩ ∧
    DatasetMetaEntry.dsMeta [("sample_name", ["S1"])] ≠ .fileMeta dfCarrier := by
  decide

/-- **C1, amended.**  The placeholder is re-created for every record of a
name, so the carrier wins only against *earlier* records: if a record with
metadata is a dataset-metadata carrier for name `n` and no later record
resolves to `n`, the final metadata mapping sends `n` to that carrier
record.  (In particular the original claim holds exactly when the carrier is
the last record processed for its name.) -/
theorem claim_C1_amended (cfgOf : String → Option BeamlineConfig)
    (pre post : List Datafile) (df : Datafile) (n : String) (stF : GroupState)
    (hg : groupFiles cfgOf (pre ++ df :: post) = some stF)
    (hmeta : df.hasMetadata = true)
    (hname : getDatasetName cfgOf df df.getBeamline = some n)
    (hcar : isDatasetMetadata cfgOf df df.getBeamline = some true)
    (hpost : ∀ d ∈ post, d.hasMetadata = true →
      getDatasetName cfgOf d d.getBeamline ≠ some n) :
    alistLookup stF.metadata n = some (.fileMeta df) := by
  unfold groupFiles at hg
  rw [List.foldl_append, List.foldl_cons] at hg
  cases hpre : List.foldl (fun ost df => ost.bind fun s => groupStep cfgOf s df)
      (some ⟨[], []⟩) pre with
  | none =>
    rw [hpre] at hg
    simp only [Option.none_bind] at hg
    rw [groupFold_none] at hg
    exact absurd hg (by simp)
  | some st1 =>
    rw [hpre] at hg
    simp only [Option.some_bind] at hg
    rw [groupStep_carrier cfgOf st1 df n hmeta hname hcar] at hg
    rw [groupFold_preserve cfgOf post _ stF n hg hpost]
    simp [alistLookup_set]

/-- **C1, amended, witness.**  With the carrier processed last, the final
metadata mapping sends `"S1"` to the carrier record. -/
theorem claim_C1_amended_witness :
    groupFiles testConfig ([dfPlain] ++ dfCarrier :: []) =
      some ⟨[("S1", [dfPlain])], [("S1", .fileMeta dfCarrier)]⟩ ∧
    alistLookup [("S1", DatasetMetaEntry.fileMeta dfCarrier)] "S1" =
      some (.fileMeta dfCarrier) :=
  ⟨by decide,
    claim_C1_amended testConfig [dfPlain] [] dfCarrier "S1"
      ⟨[("S1", [dfPlain])], [("S1", .fileMeta dfCarrier)]⟩
      (by decide) (by decide) (by decide) (by decide) (by simp)⟩

/-- **C2.**  For a stream of well-formed marker blocks (marker, `key : value`
lines, blank terminator) whose paths' first segments are all selected
beamlines and whose basenames all match the beamline's accepted-filetype
pattern, the parser yields exactly one Datafile record per block, in marker
order, named by the block's path; and for every key, the record's metadata
map holds exactly the ordered sequence of the values of that block's lines
whose normalized key (spaces and `/` removed) equals it — multi-valued keys
keep line order.  (Values of lines keyed exactly `File Size` sit in the size
field per C5, not in the map.) -/
theorem claim_C2 (bl : List String) (cfgOf : String → Option BeamlineConfig)
    (blocks : List Block)
    (hin : ∀ b ∈ blocks, firstSegment b.path ∈ bl)
    (hacc : ∀ b ∈ blocks, acceptFile cfgOf b.path (firstSegment b.path) = some true)
    (hwf : ∀ b ∈ blocks, ∀ kv ∈ b.meta, WellFormedKV kv.1 kv.2) :
    ∃ recs, parseMetaman bl cfgOf (renderBlocks blocks) = some recs ∧
      recs.length = blocks.length ∧
      ∀ i b, blocks.get? i = some b → ∃ r, recs.get? i = some r ∧
        r.name = b.path ∧ ∀ k, alistLookup r.data k = specLookup b.meta k := by
  refine ⟨blocks.map recordOfBlock, ?_, by simp, ?_⟩
  · unfold parseMetaman
    rw [parseLines_blocks bl cfgOf blocks [] hin hacc hwf]
    simp [ParseState.allFiles]
  · intro i b hb
    refine ⟨recordOfBlock b, ?_, recordOfBlock_name b, fun k => recordOfBlock_lookup b k⟩
    rw [List.get?_map, hb]
    rfl

/-- **C2, witness.**  A two-block stream for `Echidna` (the second block
with a repeated key and a `File Size` line) parses to two records in marker
order with the expected per-key value sequences. -/
theorem claim_C2_witness :
    (∀ b ∈ [Block.mk "Echidna/S1/a.pdf" [("Total Time", "10")],
            Block.mk "Echidna/S1/b.hdf"
              [("Total Time", "1"), ("Total Time", "2"), ("File Size", "7 bytes")]],
      firstSegment b.path ∈ ["Echidna"] ∧
      acceptFile config b.path (firstSegment b.path) = some true ∧
      ∀ kv ∈ b.meta, WellFormedKV kv.1 kv.2) ∧
    (∃ recs, parseMetaman ["Echidna"] config
        (renderBlocks [Block.mk "Echidna/S1/a.pdf" [("Total Time", "10")],
          Block.mk "Echidna/S1/b.hdf"
            [("Total Time", "1"), ("Total Time", "2"), ("File Size", "7 bytes")]]) =
        some recs ∧
      recs.length = 2 ∧
      ∀ i b, [Block.mk "Echidna/S1/a.pdf" [("Total Time", "10")],
          Block.mk "Echidna/S1/b.hdf"
            [("Total Time", "1"), ("Total Time", "2"), ("File Size", "7 bytes")]].get? i
          = some b →
        ∃ r, recs.get? i = some r ∧ r.name = b.path ∧
          ∀ k, alistLookup r.data k = specLookup b.meta k) :=
  ⟨by decide,
    claim_C2 ["Echidna"] config
      [Block.mk "Echidna/S1/a.pdf" [("Total Time", "10")],
        Block.mk "Echidna/S1/b.hdf"
          [("Total Time", "1"), ("Total Time", "2"), ("File Size", "7 bytes")]]
      (by decide) (by decide) (by decide)⟩

end Mecat
